import Mathlib

/-!
Verification development for the seui client-side UI toolkit (src/seui.js).

The file shallowly embeds the reactive-state and routing core of the library:

* `Observable` — the single-value observable class (seui.js, `class Observable`);
* the `State` deep proxy — its `get`/`set`/`deleteProperty` traps and the
  `notifySubscribers` closure (seui.js, `function State`);
* the `Router` — `init`, `update`, `go` and the route-matching loops
  (seui.js, `class Router`).

Mutable JS state is passed explicitly; effects (DOM lifecycle events,
subscriber invocations, store writes) are returned as explicit event lists so
ordering facts can be stated.  Callbacks, observers and DOM nodes are
identified by numeric ids; the JS regular-expression engine is an explicit
oracle parameter (it is a platform API, not code of this repository).
-/

namespace Seui

/-! ### Observable (seui.js, `class Observable`) -/

/-- Model of the `Observable` class: the `_value` field plus the ordered array
of registered observer callbacks.  `subscribe` pushes onto the array, so the
order is registration order and duplicate registrations are kept; observers
are identified by numeric ids. -/
structure Observable (α : Type) where
  value : α
  observers : List Nat

/-- One observer invocation `observer(this._value, oldValue, observer)`:
the observer id together with the `(newValue, oldValue)` pair it receives. -/
structure Invocation (α : Type) where
  observer : Nat
  newValue : α
  oldValue : α

/-- Argument of `Observable.update`: either a function of the current value
(`typeof updater === 'function'`) or a plain replacement value. -/
inductive Updater (α : Type) where
  | fn (f : α → α)
  | val (v : α)

/-- Model of `Observable.prototype.update`: records the old value, replaces
`_value` (applying the updater when it is a function), then invokes every
observer in order with `(newValue, oldValue)` — with no comparison of old and
new value anywhere. -/
def Observable.update {α : Type} (o : Observable α) (u : Updater α) :
    Observable α × List (Invocation α) :=
  let oldValue := o.value
  let newValue :=
    match u with
    | .fn f => f o.value
    | .val v => v
  ({ o with value := newValue },
   o.observers.map (fun ob => ⟨ob, newValue, oldValue⟩))

/-- Model of the `value` setter of `Observable`: `this._value = value` and
nothing else — the invocation list of this operation is empty. -/
def Observable.setValue {α : Type} (o : Observable α) (v : α) :
    Observable α × List (Invocation α) :=
  ({ o with value := v }, [])

/-- Model of the `value` getter of `Observable`. -/
def Observable.getValue {α : Type} (o : Observable α) : α :=
  o.value

/-- Claim C7: on any `Observable`, `update(v => v)` leaves `.value` unchanged
yet still invokes every registered observer, in order, with
`(newValue, oldValue)` (both equal to the held value); and for every updater
whatsoever, `update` produces one invocation per registered observer —
notification is never suppressed on an unchanged value. -/
theorem observable_update_identity_still_notifies {α : Type}
    (o : Observable α) :
    (o.update (Updater.fn id)).1.value = o.value
    ∧ (o.update (Updater.fn id)).2
        = o.observers.map (fun ob => ⟨ob, o.value, o.value⟩)
    ∧ ∀ u : Updater α, (o.update u).2.length = o.observers.length := by
  refine ⟨rfl, rfl, ?_⟩
  intro u
  simp [Observable.update]

/-- Claim C10: assigning through the `value` setter replaces the stored value
silently — the getter afterwards returns the new value, the observer list is
untouched, and no observer is invoked; notification happens only through
`update`, which invokes one observer per registration. -/
theorem observable_setter_is_silent {α : Type} (o : Observable α) (v : α) :
    (o.setValue v).1.getValue = v
    ∧ (o.setValue v).2 = []
    ∧ (o.setValue v).1.observers = o.observers
    ∧ ∀ u : Updater α, (o.update u).2.length = o.observers.length := by
  refine ⟨rfl, rfl, rfl, ?_⟩
  intro u
  simp [Observable.update]

/-! ### The `State` deep reactive proxy (seui.js, `function State`) -/

mutual
/-- JavaScript runtime values as seen by the `State` proxy.  Primitives are
`atom`s (compared by value under `===`); objects carry a numeric reference
identity `ref` (JS `===` compares objects by reference), the `wrapped` flag is
the `isProxy` marker distinguishing a `State` proxy from a plain object, and
`fields` is the property table in insertion order. -/
inductive RVal where
  | atom (v : Int)
  | obj (ref : Nat) (wrapped : Bool) (fields : Fields)

/-- Property table of a JS object: association list in insertion order
(JS objects with string keys enumerate in insertion order). -/
inductive Fields where
  | nil
  | fcons (k : String) (v : RVal) (rest : Fields)
end

/-- Model of JS `===` as used by the `set` trap (`oldValue !== newValue`):
primitives compare by value, objects by reference identity; a primitive is
never identical to an object. -/
def jsIdentical : RVal → RVal → Bool
  | .atom a, .atom b => a == b
  | .obj r _ _, .obj r' _ _ => r == r'
  | _, _ => false

/-- Property read on the raw target (`currentTarget[key]`): first matching key
wins; `none` models `undefined`. -/
def Fields.lookup : Fields → String → Option RVal
  | .nil, _ => none
  | .fcons k v rest, key => if k = key then some v else rest.lookup key

/-- Property write on the raw target (`Reflect.set`): overwrites the existing
property in place, or appends a new property at the end (JS insertion
order). -/
def Fields.insert : Fields → String → RVal → Fields
  | .nil, key, nv => .fcons key nv .nil
  | .fcons k v rest, key, nv =>
      if k = key then .fcons k nv rest else .fcons k v (rest.insert key nv)

/-- Property removal on the raw target, used by `Reflect.deleteProperty`. -/
def Fields.erase : Fields → String → Fields
  | .nil, _ => .nil
  | .fcons k v rest, key => if k = key then rest else .fcons k v (rest.erase key)

mutual
/-- Object references occurring anywhere in a value (the value's own `ref`
first, then the refs inside its fields, in order). -/
def RVal.refs : RVal → List Nat
  | .atom _ => []
  | .obj r _ fs => r :: fs.refs

/-- Object references occurring in a property table. -/
def Fields.refs : Fields → List Nat
  | .nil => []
  | .fcons _ v rest => v.refs ++ rest.refs
end

/-- Subscriber registry of one `State` node: the closure state captured by the
proxy handler — `subscribers` (a `Set`, iterated in insertion order, no
duplicates) and `propertySubscribers` (a `Map` from key to a `Set` of
callbacks).  Callbacks are identified by numeric ids. -/
structure Registry where
  globals : List Nat
  keyed : List (String × List Nat)

/-- Lookup in `propertySubscribers`: the set of callbacks scoped to `key`
(`[]` when `propertySubscribers.has(key)` is false). -/
def keyedSubs (reg : Registry) (key : String) : List Nat :=
  match reg.keyed.lookup key with
  | some cs => cs
  | none => []

/-- Scope under which a callback was registered with `subscribe`. -/
inductive Scope where
  | global
  | keyed (k : String)

/-- One subscriber invocation `callback(_target, key, oldValue, newValue)`:
the callback id, the scope of the registration that fired, and the
`(key, oldValue, newValue)` arguments (the target is the node itself).
`none` models `undefined`. -/
structure Inv where
  cb : Nat
  scope : Scope
  key : String
  oldValue : Option RVal
  newValue : Option RVal

/-- Model of the `notifySubscribers` closure: every global subscriber is
invoked first, in insertion order, then every subscriber scoped to the
changed key, in insertion order. -/
def notifySubscribers (reg : Registry) (key : String)
    (oldValue newValue : Option RVal) : List Inv :=
  reg.globals.map (fun c => ⟨c, Scope.global, key, oldValue, newValue⟩)
    ++ (keyedSubs reg key).map (fun c => ⟨c, Scope.keyed key, key, oldValue, newValue⟩)

/-- Observable effect of one proxy-trap run: a write to the underlying store
(`Reflect.set` / `Reflect.deleteProperty`, `none` = property removed) or a
subscriber invocation. -/
inductive Ev where
  | write (key : String) (nv : Option RVal)
  | inv (i : Inv)

/-- The `set` trap's change test `oldValue !== newValue`: a write to a
missing property (old value `undefined`) always counts as a change, otherwise
the old and new values are compared with `===`. -/
def setChanged (fs : Fields) (key : String) (nv : RVal) : Bool :=
  match fs.lookup key with
  | none => true
  | some o => !(jsIdentical o nv)

/-- Model of the proxy `set` trap on one `State` node: reads the old value,
performs `Reflect.set` on the store (which succeeds on a plain data object),
and only when `oldValue !== newValue` notifies the node's subscribers — the
store write strictly precedes every invocation in the event list. -/
def handlerSet (fs : Fields) (reg : Registry) (key : String) (nv : RVal) :
    Fields × List Ev :=
  let oldValue := fs.lookup key
  (fs.insert key nv,
   Ev.write key (some nv) ::
     (if setChanged fs key nv then
        (notifySubscribers reg key oldValue (some nv)).map Ev.inv
      else []))

/-- Model of `Reflect.deleteProperty` on a plain data object: the property is
removed and the result is `true` — JS `[[Delete]]` succeeds (returning `true`)
both for configurable properties and for properties that do not exist. -/
def reflectDeleteProperty (fs : Fields) (key : String) : Fields × Bool :=
  (fs.erase key, true)

/-- Model of the proxy `deleteProperty` trap on one `State` node: reads the
old value, performs `Reflect.deleteProperty`, and when the result is `true`
notifies the node's subscribers with `newValue = undefined`. -/
def handlerDelete (fs : Fields) (reg : Registry) (key : String) :
    Fields × List Ev :=
  let oldValue := fs.lookup key
  let del := reflectDeleteProperty fs key
  (del.1,
   Ev.write key none ::
     (if del.2 then (notifySubscribers reg key oldValue none).map Ev.inv else []))

/-- Number of invocations of callback `cb` through its key-`key` registration
in an event list. -/
def keyedInvCount (evs : List Ev) (cb : Nat) (key : String) : Nat :=
  evs.countP (fun e =>
    match e with
    | .inv i =>
        i.cb == cb
          && (match i.scope with
              | Scope.keyed k => k == key
              | Scope.global => false)
    | _ => false)

/-- A sequence of writes through the `set` trap of one node, threading the
store and concatenating the event lists. -/
def runWrites (fs : Fields) (reg : Registry) :
    List (String × RVal) → Fields × List Ev
  | [] => (fs, [])
  | (k, v) :: rest =>
      let step := handlerSet fs reg k v
      let tail := runWrites step.1 reg rest
      (tail.1, step.2 ++ tail.2)

/-- Number of writes in a sequence that target `key` and actually change its
stored value (in the sense of the `set` trap's `oldValue !== newValue` test),
threading the store through every write. -/
def changedWritesOn (fs : Fields) (key : String) :
    List (String × RVal) → Nat
  | [] => 0
  | (k, v) :: rest =>
      (if k = key ∧ setChanged fs k v = true then 1 else 0)
        + changedWritesOn (fs.insert k v) key rest

/-- Occurrences of callback id `cb` in a subscriber set (a JS `Set` holds no
duplicates, so for a registered callback this is `1`). -/
def subCount (cs : List Nat) (cb : Nat) : Nat :=
  cs.countP (fun c => c == cb)

lemma keyedInvCount_nil (cb : Nat) (key : String) :
    keyedInvCount [] cb key = 0 := rfl

lemma keyedInvCount_append (l₁ l₂ : List Ev) (cb : Nat) (key : String) :
    keyedInvCount (l₁ ++ l₂) cb key
      = keyedInvCount l₁ cb key + keyedInvCount l₂ cb key := by
  simp [keyedInvCount, List.countP_append]

lemma keyedInvCount_write (l : List Ev) (k : String) (nv : Option RVal)
    (cb : Nat) (key : String) :
    keyedInvCount (Ev.write k nv :: l) cb key = keyedInvCount l cb key := by
  simp [keyedInvCount, List.countP_cons]

/-- Invocations produced by one `notifySubscribers` run, counted through the
key-`key` registration of `cb`: the global half of the list never matches, and
the keyed half matches exactly when the notified key is `key`. -/
lemma keyedInvCount_notify (reg : Registry) (k : String)
    (oldValue newValue : Option RVal) (cb : Nat) (key : String) :
    keyedInvCount ((notifySubscribers reg k oldValue newValue).map Ev.inv) cb key
      = if k = key then subCount (keyedSubs reg k) cb else 0 := by
  by_cases h : k = key
  · subst h
    simp [keyedInvCount, notifySubscribers, subCount, List.countP_map,
      List.countP_append, Function.comp_def, Bool.and_comm]
  · simp only [keyedInvCount, notifySubscribers, List.map_append,
      List.countP_append, List.countP_map, Function.comp_def]
    have hk : (k == key) = false := by
      simp [h]
    simp [h, hk]

lemma keyedInvCount_handlerSet (fs : Fields) (reg : Registry) (k : String)
    (nv : RVal) (cb : Nat) (key : String) :
    keyedInvCount (handlerSet fs reg k nv).2 cb key
      = if k = key ∧ setChanged fs k nv = true
        then subCount (keyedSubs reg k) cb else 0 := by
  by_cases hc : setChanged fs k nv = true
  · simp only [handlerSet, hc, if_true]
    rw [keyedInvCount_write, keyedInvCount_notify]
    by_cases h : k = key <;> simp [h, hc]
  · simp only [handlerSet, hc, if_false]
    rw [keyedInvCount_write]
    simp [keyedInvCount_nil, hc]

lemma keyedInvCount_runWrites (reg : Registry) (cb : Nat) (key : String)
    (hsub : subCount (keyedSubs reg key) cb = 1) :
    ∀ (ws : List (String × RVal)) (fs : Fields),
      keyedInvCount (runWrites fs reg ws).2 cb key = changedWritesOn fs key ws := by
  intro ws
  induction ws with
  | nil => intro fs; rfl
  | cons kv rest ih =>
      intro fs
      obtain ⟨k, v⟩ := kv
      show keyedInvCount ((handlerSet fs reg k v).2 ++ (runWrites (handlerSet fs reg k v).1 reg rest).2) cb key = _
      rw [keyedInvCount_append, keyedInvCount_handlerSet]
      have hfs : (handlerSet fs reg k v).1 = fs.insert k v := rfl
      rw [hfs, ih]
      show _ = (if k = key ∧ setChanged fs k v = true then 1 else 0)
        + changedWritesOn (fs.insert k v) key rest
      by_cases h : k = key ∧ setChanged fs k v = true

      · rcases h with ⟨hk, hc⟩
        subst hk
        simp [hc, hsub]
      · simp [h]

/-- Claim C2: the `set` trap of a `State` node (a) performs the store write
and suppresses every notification when the written value is `===`-identical
to the old one; (b) on a change, the event list starts with the store write
and only then notifies the global and the key-scoped subscriber sets with
`(key, oldValue, newValue)`; hence (c) over any sequence of writes, a
callback registered once on key `K` fires exactly once per write that changes
`K`'s stored value and zero times for writes that assign an identical
value. -/
theorem state_set_change_detection :
    (∀ (fs : Fields) (reg : Registry) (key : String) (nv v : RVal),
        fs.lookup key = some v → jsIdentical v nv = true →
        (handlerSet fs reg key nv).2 = [Ev.write key (some nv)]
          ∧ (handlerSet fs reg key nv).1 = fs.insert key nv)
    ∧ (∀ (fs : Fields) (reg : Registry) (key : String) (nv : RVal),
        setChanged fs key nv = true →
        (handlerSet fs reg key nv).2
          = Ev.write key (some nv)
              :: (notifySubscribers reg key (fs.lookup key) (some nv)).map Ev.inv
          ∧ (handlerSet fs reg key nv).1 = fs.insert key nv)
    ∧ (∀ (fs : Fields) (reg : Registry) (key : String) (cb : Nat)
         (ws : List (String × RVal)),
        subCount (keyedSubs reg key) cb = 1 →
        keyedInvCount (runWrites fs reg ws).2 cb key = changedWritesOn fs key ws) := by
  refine ⟨?_, ?_, ?_⟩
  · intro fs reg key nv v hl hid
    have hc : setChanged fs key nv = false := by
      simp [setChanged, hl, hid]
    constructor
    · simp [handlerSet, hc]
    · rfl
  · intro fs reg key nv hc
    constructor
    · simp [handlerSet, hc]
    · rfl
  · intro fs reg key cb ws hsub
    exact keyedInvCount_runWrites reg cb key hsub ws fs

/-- Concrete node used in witnesses: store `{x: 1}`, one global subscriber
(id 9) and one subscriber (id 5) scoped to key `"x"`. -/
def fsW : Fields := .fcons "x" (.atom 1) .nil

/-- Registry of the witness node. -/
def regW : Registry := ⟨[9], [("x", [5])]⟩

/-- Witness write sequence: two identical-value writes to `"x"` after one
changing write, plus a write to an unrelated key. -/
def wsW : List (String × RVal) := [("x", .atom 2), ("x", .atom 2), ("y", .atom 3)]

theorem state_set_change_detection_witness :
    (handlerSet fsW regW "x" (RVal.atom 1)).2 = [Ev.write "x" (some (RVal.atom 1))]
    ∧ keyedInvCount (runWrites fsW regW wsW).2 5 "x" = changedWritesOn fsW "x" wsW
    ∧ changedWritesOn fsW "x" wsW = 1 :=
  ⟨(state_set_change_detection.1 fsW regW "x" (RVal.atom 1) (RVal.atom 1) rfl rfl).1,
   state_set_change_detection.2.2 fsW regW "x" 5 wsW rfl,
   rfl⟩

/-- Registry with a single subscriber (id 5) scoped to key `"x"`, used to
exhibit the behaviour of `deleteProperty` on a missing property. -/
def regDel : Registry := ⟨[], [("x", [5])]⟩

/-- Claim C4, counterexample: deleting the non-existent property `"x"` from an
empty store is NOT a silent no-op — `Reflect.deleteProperty` returns `true`
for an absent property, so the trap notifies the key-`"x"` subscriber once,
with `oldValue = undefined` and `newValue = undefined`. -/
theorem state_delete_missing_notifies_cex :
    Fields.nil.lookup "x" = none
    ∧ keyedInvCount (handlerDelete Fields.nil regDel "x").2 5 "x" = 1
    ∧ (handlerDelete Fields.nil regDel "x").2
        = [Ev.write "x" none, Ev.inv ⟨5, Scope.keyed "x", "x", none, none⟩] :=
  ⟨rfl, rfl, rfl⟩

/-- Claim C4, amended: the `deleteProperty` trap always removes the property
from the store and always notifies the node's subscribers with
`newValue = undefined` and `oldValue` the previous value (`undefined` when the
property did not exist) — a callback registered once on the deleted key fires
exactly once, whether or not the property existed. -/
theorem state_delete_always_notifies
    (fs : Fields) (reg : Registry) (key : String) (cb : Nat)
    (hsub : subCount (keyedSubs reg key) cb = 1) :
    (handlerDelete fs reg key).1 = fs.erase key
    ∧ (handlerDelete fs reg key).2
        = Ev.write key none
            :: (notifySubscribers reg key (fs.lookup key) none).map Ev.inv
    ∧ keyedInvCount (handlerDelete fs reg key).2 cb key = 1
    ∧ ∀ i : Inv, Ev.inv i ∈ (handlerDelete fs reg key).2 →
        i.newValue = none ∧ i.oldValue = fs.lookup key ∧ i.key = key := by
  refine ⟨rfl, rfl, ?_, ?_⟩
  · show keyedInvCount
      (Ev.write key none :: (notifySubscribers reg key (fs.lookup key) none).map Ev.inv)
      cb key = 1
    rw [keyedInvCount_write, keyedInvCount_notify]
    simp [hsub]
  · intro i hi
    have hi' : Ev.inv i ∈
        Ev.write key none
          :: (notifySubscribers reg key (fs.lookup key) none).map Ev.inv := hi
    simp only [List.mem_cons, List.mem_map] at hi'
    rcases hi' with h | ⟨j, hj, hji⟩
    · exact absurd h (by simp)
    · cases hji
      simp only [notifySubscribers, List.mem_append, List.mem_map] at hj
      rcases hj with ⟨c, _, hc⟩ | ⟨c, _, hc⟩ <;> cases hc <;> exact ⟨rfl, rfl, rfl⟩

theorem state_delete_always_notifies_witness :
    (handlerDelete fsW regDel "x").1 = Fields.nil
    ∧ keyedInvCount (handlerDelete fsW regDel "x").2 5 "x" = 1 :=
  ⟨(state_delete_always_notifies fsW regDel "x" 5 rfl).1,
   (state_delete_always_notifies fsW regDel "x" 5 rfl).2.2.1⟩

/-! ### Nested reactive nodes (the recursive wrapping in the `get` trap) -/

/-- One change notification emitted by a node's `notifySubscribers` closure:
`nid` is the proxy identity of the node whose closure fired — only callbacks
subscribed on that node can be invoked from it. -/
structure Notif where
  nid : Nat
  key : String
  oldValue : Option RVal
  newValue : Option RVal

/-- Model of the proxy `get` trap for a data property: a primitive or an
already-wrapped value is returned as is; an object value not yet proxied is
replaced in the store by a freshly wrapped version
(`currentTarget[key] = State(prop, isAsync)`) with a new proxy identity drawn
from the counter `cnt`, and that wrapper is returned (memoized wrapping). -/
def getFieldW (cnt : Nat) (fs : Fields) (key : String) :
    Nat × Fields × Option RVal :=
  match fs.lookup key with
  | none => (cnt, fs, none)
  | some (.atom a) => (cnt, fs, some (.atom a))
  | some (.obj r true cfs) => (cnt, fs, some (.obj r true cfs))
  | some (.obj _ false cfs) =>
      (cnt + 1, fs.insert key (.obj cnt true cfs), some (.obj cnt true cfs))

/-- A property write `node.p₁.p₂⋯.pₖ.key = nv` through the proxy graph:
each step of `path` is a `get` (with its memoized wrapping), the final step is
the `set` trap of the node reached, whose `notifySubscribers` closure emits
the notification — tagged with that node's proxy identity.  `none` models a
JS `TypeError` (navigating into a primitive or a missing property). -/
def setAt (cnt : Nat) (v : RVal) (path : List String) (key : String)
    (nv : RVal) : Option (Nat × RVal × List Notif) :=
  match v, path with
  | .atom _, _ => none
  | .obj ref w fs, [] =>
      some (cnt, .obj ref w (fs.insert key nv),
        if setChanged fs key nv then [⟨ref, key, fs.lookup key, some nv⟩] else [])
  | .obj ref w fs, p :: ps =>
      match getFieldW cnt fs p with
      | (cnt', fs', some child) =>
          match setAt cnt' child ps key nv with
          | some (cnt2, child', notifs) =>
              some (cnt2, .obj ref w (fs'.insert p child'), notifs)
          | none => none
      | (_, _, none) => none

lemma lookup_refs :
    ∀ (fs : Fields) (key : String) (v : RVal),
      fs.lookup key = some v → ∀ x, x ∈ v.refs → x ∈ fs.refs
  | .nil, _, _ => by intro h; cases h
  | .fcons k w rest, key, v => by
      intro h x hx
      by_cases hk : k = key
      · have hv : w = v := by
          simpa [Fields.lookup, hk] using h
        subst hv
        simp [Fields.refs, hx]
      · have h' : rest.lookup key = some v := by
          simpa [Fields.lookup, hk] using h
        have := lookup_refs rest key v h' x hx
        simp [Fields.refs, this]

lemma getFieldW_spec (cnt : Nat) (fs : Fields) (key : String)
    (cnt' : Nat) (fs' : Fields) (child : RVal)
    (h : getFieldW cnt fs key = (cnt', fs', some child)) :
    cnt ≤ cnt' ∧ ∀ x, x ∈ child.refs → x ∈ fs.refs ∨ cnt ≤ x := by
  unfold getFieldW at h
  rcases hl : fs.lookup key with _ | v
  · rw [hl] at h; cases h
  · rw [hl] at h
    match v, hl with
    | .atom a, hl =>
        cases h
        exact ⟨Nat.le_refl _, by intro x hx; cases hx⟩
    | .obj r true cfs, hl =>
        cases h
        refine ⟨Nat.le_refl _, ?_⟩
        intro x hx
        exact Or.inl (lookup_refs fs key _ hl x hx)
    | .obj r false cfs, hl =>
        cases h
        refine ⟨Nat.le_succ _, ?_⟩
        intro x hx
        rcases hx with _ | hx
        · exact Or.inr (Nat.le_refl _)
        · rename_i hx
          refine Or.inl (lookup_refs fs key _ hl x ?_)
          simp [RVal.refs]
          exact Or.inr hx

lemma setAt_nid_mem :
    ∀ (path : List String) (cnt : Nat) (v : RVal) (key : String) (nv : RVal)
      (cnt2 : Nat) (v2 : RVal) (notifs : List Notif),
      setAt cnt v path key nv = some (cnt2, v2, notifs) →
      ∀ n ∈ notifs, n.nid ∈ v.refs ∨ cnt ≤ n.nid := by
  intro path
  induction path with
  | nil =>
      intro cnt v key nv cnt2 v2 notifs h n hn
      match v, h with
      | .obj ref w fs, h =>
          have hns : notifs =
              (if setChanged fs key nv then
                [⟨ref, key, fs.lookup key, some nv⟩] else []) := by
            have := congrArg (fun o => o.map (fun r : Nat × RVal × List Notif => r.2.2)) h
            simpa [setAt] using this.symm
          rw [hns] at hn
          by_cases hc : setChanged fs key nv
          · simp [hc] at hn
            subst hn
            exact Or.inl (by simp [RVal.refs])
          · simp [hc] at hn
  | cons p ps ih =>
      intro cnt v key nv cnt2 v2 notifs h n hn
      match v, h with
      | .obj ref w fs, h =>
          rcases hg : getFieldW cnt fs p with ⟨cnt', fs', child?⟩
          rcases child? with _ | child
          · simp [setAt, hg] at h
          · rcases hs : setAt cnt' child ps key nv with _ | ⟨cnt3, child', notifs'⟩
            · simp [setAt, hg, hs] at h
            · simp only [setAt, hg, hs, Option.some.injEq, Prod.mk.injEq] at h
              obtain ⟨-, -, h3⟩ := h
              subst h3
              have hspec := getFieldW_spec cnt fs p cnt' fs' child hg
              have hih := ih cnt' child key nv cnt3 child' notifs' hs n hn
              rcases hih with hmem | hle
              · rcases hspec.2 n.nid hmem with hin | hcnt
                · refine Or.inl ?_
                  show n.nid ∈ ref :: fs.refs
                  exact List.mem_cons_of_mem _ hin
                · exact Or.inr hcnt
              · exact Or.inr (Nat.le_trans hspec.1 hle)

/-- Claim C5: writes through the nested reactive graph do not bubble.
Part one: a write reaching a nested node through at least one property `get`
(so through the memoized wrapping of the `get` trap) emits notifications
tagged with that nested node's proxy identity only — never with the root's,
provided the proxy identities in the tree are distinct and below the
fresh-identity counter.  Part two: replacing a whole nested wrapped object via
the parent (`node.a = {...}`) notifies the parent's own closure (with the old
wrapper as `oldValue`) and never the closure of the old `node.a` wrapper. -/
theorem state_nested_no_bubbling :
    (∀ (cnt r : Nat) (w : Bool) (fs : Fields) (path : List String)
       (key : String) (nv : RVal) (cnt2 : Nat) (v2 : RVal) (notifs : List Notif),
        (RVal.obj r w fs).refs.Nodup →
        (∀ x ∈ (RVal.obj r w fs).refs, x < cnt) →
        path ≠ [] →
        setAt cnt (RVal.obj r w fs) path key nv = some (cnt2, v2, notifs) →
        ∀ n ∈ notifs, n.nid ≠ r)
    ∧ (∀ (cnt r : Nat) (w : Bool) (fs : Fields) (key : String) (nv : RVal)
         (rc : Nat) (cw : Bool) (cfs : Fields) (cnt2 : Nat) (v2 : RVal)
         (notifs : List Notif),
        (RVal.obj r w fs).refs.Nodup →
        fs.lookup key = some (RVal.obj rc cw cfs) →
        setAt cnt (RVal.obj r w fs) [] key nv = some (cnt2, v2, notifs) →
        (∀ n ∈ notifs, n.nid = r ∧ n.nid ≠ rc)
          ∧ (jsIdentical (RVal.obj rc cw cfs) nv = false →
              notifs = [⟨r, key, some (RVal.obj rc cw cfs), some nv⟩])) := by
  have hrfs : ∀ (r : Nat) (w : Bool) (fs : Fields),
      (RVal.obj r w fs).refs = r :: fs.refs := fun _ _ _ => rfl
  constructor
  · intro cnt r w fs path key nv cnt2 v2 notifs hnd hbound hne h n hn
    match path, hne with
    | p :: ps, _ =>
      have hrlt : r < cnt := hbound r (by simp [hrfs])
      have hnotin : r ∉ fs.refs := by
        rw [hrfs] at hnd
        exact (List.nodup_cons.mp hnd).1
      rcases hg : getFieldW cnt fs p with ⟨cnt', fs', child?⟩
      rcases child? with _ | child
      · simp [setAt, hg] at h
      · rcases hs : setAt cnt' child ps key nv with _ | ⟨cnt3, child', notifs'⟩
        · simp [setAt, hg, hs] at h
        · simp only [setAt, hg, hs, Option.some.injEq, Prod.mk.injEq] at h
          obtain ⟨-, -, h3⟩ := h
          subst h3
          have hspec := getFieldW_spec cnt fs p cnt' fs' child hg
          have hmem := setAt_nid_mem ps cnt' child key nv cnt3 child' notifs' hs n hn
          rcases hmem with hmem | hle
          · rcases hspec.2 n.nid hmem with hin | hcnt
            · intro he; exact hnotin (he ▸ hin)
            · intro he; exact absurd (he ▸ hcnt) (Nat.not_le_of_lt hrlt)
          · intro he
            exact absurd (he ▸ Nat.le_trans hspec.1 hle) (Nat.not_le_of_lt hrlt)
  · intro cnt r w fs key nv rc cw cfs cnt2 v2 notifs hnd hl h
    have hrc : rc ∈ fs.refs :=
      lookup_refs fs key _ hl rc (by simp [hrfs])
    have hrne : r ≠ rc := by
      rw [hrfs] at hnd
      intro he
      exact (List.nodup_cons.mp hnd).1 (he ▸ hrc)
    have hch : setChanged fs key nv = !(jsIdentical (RVal.obj rc cw cfs) nv) := by
      simp [setChanged, hl]
    simp only [setAt, Option.some.injEq, Prod.mk.injEq] at h
    obtain ⟨-, -, h3⟩ := h
    subst h3
    constructor
    · intro n hn
      by_cases hc : setChanged fs key nv = true
      · simp [hc] at hn
        subst hn
        exact ⟨rfl, hrne⟩
      · simp [hc] at hn
    · intro hid
      have hc : setChanged fs key nv = true := by
        rw [hch, hid]; rfl
      simp [hc, hl]

/-- Scenario D input: the wrap of `{a: {b: 1}}` — root proxy identity `0`,
inner object not yet wrapped (raw reference `1`); next fresh identity is 2. -/
def treeW : RVal :=
  .obj 0 true (.fcons "a" (.obj 1 false (.fcons "b" (.atom 1) .nil)) .nil)

/-- The tree after `node.a.b = 2`: the inner object was wrapped on access with
fresh proxy identity `2` and its `b` holds `2`. -/
def treeW1 : RVal :=
  .obj 0 true (.fcons "a" (.obj 2 true (.fcons "b" (.atom 2) .nil)) .nil)

/-- Fresh raw object `{b: 1}` (reference `3`) assigned to `node.a`. -/
def rawW : RVal := .obj 3 false (.fcons "b" (.atom 1) .nil)

theorem state_nested_no_bubbling_witness :
    setAt 2 treeW ["a"] "b" (RVal.atom 2)
      = some (3, treeW1, [⟨2, "b", some (RVal.atom 1), some (RVal.atom 2)⟩])
    ∧ (⟨2, "b", some (RVal.atom 1), some (RVal.atom 2)⟩ : Notif).nid ≠ 0
    ∧ setAt 3 treeW1 [] "a" rawW
      = some (3, RVal.obj 0 true (.fcons "a" rawW .nil),
          [⟨0, "a", some (RVal.obj 2 true (.fcons "b" (.atom 2) .nil)), some rawW⟩])
    ∧ (⟨0, "a", some (RVal.obj 2 true (.fcons "b" (.atom 2) .nil)),
          some rawW⟩ : Notif).nid ≠ 2 := by
  refine ⟨rfl, ?_, rfl, ?_⟩
  · exact state_nested_no_bubbling.1 2 0 true
      (.fcons "a" (.obj 1 false (.fcons "b" (.atom 1) .nil)) .nil)
      ["a"] "b" (RVal.atom 2) 3 treeW1
      [⟨2, "b", some (RVal.atom 1), some (RVal.atom 2)⟩]
      (by decide) (by decide) (by simp) rfl _ (by simp)
  · exact ((state_nested_no_bubbling.2 3 0 true
      (.fcons "a" (.obj 2 true (.fcons "b" (.atom 2) .nil)) .nil)
      "a" rawW 2 true (.fcons "b" (.atom 2) .nil) 3
      (RVal.obj 0 true (.fcons "a" rawW .nil))
      [⟨0, "a", some (RVal.obj 2 true (.fcons "b" (.atom 2) .nil)), some rawW⟩]
      (by decide) rfl rfl).1 _ (by simp)).2

/-! ### Router (seui.js, `class Router`) -/

/-- JS values held in the router state's `data` field, with JS truthiness. -/
inductive JSData where
  | null
  | bool (b : Bool)
  | num (n : Int)
  | str (s : String)
  | obj (ref : Nat)
deriving Repr, DecidableEq

/-- JS truthiness, as tested by `if (!data)`. -/
def JSData.truthy : JSData → Bool
  | .null => false
  | .bool b => b
  | .num n => n != 0
  | .str s => s != ""
  | .obj _ => true

/-- The router's observable state value `{newURL, oldURL, data}`. -/
structure RouterState where
  newURL : String
  oldURL : String
  data : JSData
deriving Repr, DecidableEq

/-- Model of `Router.prototype.go(hash, data)`: assigns `window.location.hash`
and then, synchronously (without waiting for any hash-change navigation),
merges `data` into the router state — except that `if (!data) return` skips
the merge when `data` is absent or falsy.  The result is the new location
hash paired with the new state value. -/
def routerGo (hash : String) (data : Option JSData) (st : RouterState) :
    String × RouterState :=
  match data with
  | none => (hash, st)
  | some d => if d.truthy then (hash, { st with data := d }) else (hash, st)

/-- The state update performed by `Router.update` after a successful match:
`{...current, newURL, oldURL}` — `data` is carried over unchanged. -/
def routerNavState (newURL oldURL : String) (st : RouterState) : RouterState :=
  { st with newURL := newURL, oldURL := oldURL }

/-- Route table: key/handler pairs in insertion order (handlers are numeric
ids; `for ... in` over a JS object with non-index string keys iterates in
insertion order). -/
abbrev RouteTable := List (String × Nat)

/-- The test `key.indexOf("#!/") === 0` — the key begins with the reserved
pattern-route marker `"#!/"` (checked on the character sequence). -/
def hashBangSlash (s : String) : Bool :=
  match s.data with
  | '#' :: '!' :: '/' :: _ => true
  | _ => false

/-- The exact-route test of the first matching loop:
`key.indexOf("#!/") !== 0 && location.hash === "#!" + key`. -/
def exactMatches (key hash : String) : Bool :=
  !(hashBangSlash key) && (hash == "#!" ++ key)

/-- First loop of `Router.update`: find the first exact route, in table
order. -/
def findExact : RouteTable → String → Option (String × Nat)
  | [], _ => none
  | (k, h) :: rest, hash =>
      if exactMatches k hash then some (k, h) else findExact rest hash

/-- The platform regular-expression engine (`new RegExp(key)` matched against
`document.URL`): given the route key and the URL, `some groups` is the list
`match.slice(1)` of captured groups, `none` a failed match.  An oracle
parameter, since the regex engine is a platform API. -/
abbrev RegexEngine := String → String → Option (List String)

/-- Second loop of `Router.update`: among keys starting with `"#!/"`, find
the first whose regular expression matches the full document URL, returning
its handler and captured groups. -/
def findRegExp : RouteTable → RegexEngine → String → Option (Nat × List String)
  | [], _, _ => none
  | (k, h) :: rest, rx, url =>
      if hashBangSlash k then
        match rx k url with
        | some groups => some (h, groups)
        | none => findRegExp rest rx url
      else findRegExp rest rx url

/-- The pattern test applied to a single key by the second loop. -/
def patternHit (rx : RegexEngine) (url key : String) : Option (List String) :=
  if hashBangSlash key then rx key url else none

/-- Route resolution of `Router.update`: exact routes are tried first against
`location.hash`; only if none matched are pattern routes tried against
`document.URL`.  The result is the matched handler id and the captured groups
to append after `(oldURL, newURL)` (empty for an exact match). -/
def matchRoute (routes : RouteTable) (rx : RegexEngine) (hash url : String) :
    Option (Nat × List String) :=
  match findExact routes hash with
  | some (_, h) => some (h, [])
  | none => findRegExp routes rx url

/-- Characters that `encodeURIComponent` leaves unescaped. -/
def isUnreservedURIChar (c : Char) : Bool :=
  (c ≥ 'A' && c ≤ 'Z') || (c ≥ 'a' && c ≤ 'z') || (c ≥ '0' && c ≤ '9')
    || c == '-' || c == '_' || c == '.' || c == '!' || c == '~' || c == '*'
    || c == Char.ofNat 39 || c == '(' || c == ')'

/-- Upper-case hexadecimal digit. -/
def hexDigitChar (n : Nat) : Char :=
  if n < 10 then Char.ofNat (48 + n) else Char.ofNat (55 + n)

/-- Percent-escape of one byte. -/
def byteHex (b : Nat) : String :=
  String.mk ['%', hexDigitChar (b / 16), hexDigitChar (b % 16)]

/-- UTF-8 bytes of a character (as numbers). -/
def utf8BytesOf (c : Char) : List Nat :=
  let n := c.toNat
  if n < 128 then [n]
  else if n < 2048 then [192 + n / 64, 128 + n % 64]
  else if n < 65536 then [224 + n / 4096, 128 + (n / 64) % 64, 128 + n % 64]
  else [240 + n / 262144, 128 + (n / 4096) % 64, 128 + (n / 64) % 64, 128 + n % 64]

/-- Model of the platform `encodeURIComponent`: unreserved characters are
copied, every other character is replaced by the percent-escapes of its UTF-8
bytes. -/
def encodeURIComponent (s : String) : String :=
  s.data.foldl
    (fun acc c =>
      if isUnreservedURIChar c then acc.push c
      else acc ++ String.join ((utf8BytesOf c).map byteHex))
    ""

/-- Outcome of invoking a route handler with `(oldURL, newURL, ...groups)`:
it throws, or resolves to a DOM `Node` (identified by id), or resolves to a
non-node value such as `false`. -/
inductive HandlerRun where
  | throws (msg : String)
  | node (n : Nat)
  | nonNode
deriving Repr, DecidableEq

/-- Lifecycle effects of one `Router.update` run, in order: the unmount
signal delivered for the previously active component, the detaching of all
listeners under the root, and the mount signal for the new component. -/
inductive LEvent where
  | unmount (c : Nat)
  | listenersRemoved
  | mount (c : Nat)
deriving Repr, DecidableEq

/-- Environment of a `Router.update` run: the route table, the regex engine,
the behaviour of every handler as a function of
`(handler id, oldURL, newURL, groups)`, the full document URL, and the
configured default route. -/
structure REnv where
  routes : RouteTable
  rx : RegexEngine
  handlers : Nat → String → String → List String → HandlerRun
  docURL : String
  defaultRoute : String

/-- Mutable state touched by `Router.update`: `window.location.hash`, the
active component slot `_activeComponent`, the root's rendered content, the
router state observable's value, and the accumulated lifecycle event log. -/
structure RSt where
  hash : String
  active : Option Nat
  content : Option Nat
  stVal : RouterState
  events : List LEvent
deriving Repr, DecidableEq

/-- Model of `Router.prototype.update(newURL, oldURL)`.  A matched handler is
invoked with `(oldURL, newURL, ...groups)`; a synchronous throw reaches the
`catch` block, which sets the hash to the URL-encoded error route and touches
nothing else.  On a normal run the previous component receives its unmount
signal and listeners are removed, a `Node` result atomically replaces the
root content, becomes active and receives the mount signal, and the state
observable is updated with `{...current, newURL, oldURL}`.  If nothing
matched, the hash is reassigned to the default route (prefixed with `"#!"`
unless it already starts with `"#!/"`) — unless the current hash already
equals the default route. -/
def updateModel (env : REnv) (newURL oldURL : String) (s : RSt) : RSt :=
  match matchRoute env.routes env.rx s.hash env.docURL with
  | some (h, groups) =>
      match env.handlers h oldURL newURL groups with
      | .throws msg =>
          { s with hash := "#!/error/" ++ encodeURIComponent msg }
      | .node n =>
          let evs :=
            match s.active with
            | some c => [LEvent.unmount c, LEvent.listenersRemoved]
            | none => []
          { s with
            content := some n
            active := some n
            events := s.events ++ evs ++ [LEvent.mount n]
            stVal := routerNavState newURL oldURL s.stVal }
      | .nonNode =>
          let evs :=
            match s.active with
            | some c => [LEvent.unmount c, LEvent.listenersRemoved]
            | none => []
          { s with
            events := s.events ++ evs
            stVal := routerNavState newURL oldURL s.stVal }
  | none =>
      if s.hash = env.defaultRoute then s
      else
        { s with hash :=
            if hashBangSlash env.defaultRoute then env.defaultRoute
            else "#!" ++ env.defaultRoute }

lemma findExact_first :
    ∀ (routes : RouteTable) (hash : String) (i : Nat) (k : String) (h : Nat),
      routes.get? i = some (k, h) →
      exactMatches k hash = true →
      (∀ j, j < i → ∀ k' h', routes.get? j = some (k', h') →
        exactMatches k' hash = false) →
      findExact routes hash = some (k, h) := by
  intro routes
  induction routes with
  | nil => intro hash i k h hg; cases hg
  | cons e rest ih =>
      intro hash i k h hg hm hmin
      obtain ⟨k0, h0⟩ := e
      cases i with
      | zero =>
          simp only [List.get?_cons_zero, Option.some.injEq, Prod.mk.injEq] at hg
          obtain ⟨hk, hh⟩ := hg
          subst hk; subst hh
          simp [findExact, hm]
      | succ i =>
          have h0m : exactMatches k0 hash = false :=
            hmin 0 (Nat.succ_pos i) k0 h0 rfl
          rw [List.get?_cons_succ] at hg
          have : findExact rest hash = some (k, h) := by
            refine ih hash i k h hg hm ?_
            intro j hj k' h' hg'
            exact hmin (j + 1) (Nat.succ_lt_succ hj) k' h' (by simpa using hg')
          simp [findExact, h0m, this]

lemma findExact_of_no_match :
    ∀ (routes : RouteTable) (hash : String),
      (∀ e ∈ routes, exactMatches e.1 hash = false) →
      findExact routes hash = none := by
  intro routes
  induction routes with
  | nil => intro hash _; rfl
  | cons e rest ih =>
      intro hash hno
      obtain ⟨k0, h0⟩ := e
      have h0m : exactMatches k0 hash = false := hno (k0, h0) (by simp)
      have : findExact rest hash = none :=
        ih hash (fun e he => hno e (List.mem_cons_of_mem _ he))
      simp [findExact, h0m, this]

lemma findRegExp_first :
    ∀ (routes : RouteTable) (rx : RegexEngine) (url : String) (i : Nat)
      (k : String) (h : Nat) (groups : List String),
      routes.get? i = some (k, h) →
      patternHit rx url k = some groups →
      (∀ j, j < i → ∀ k' h', routes.get? j = some (k', h') →
        patternHit rx url k' = none) →
      findRegExp routes rx url = some (h, groups) := by
  intro routes
  induction routes with
  | nil => intro rx url i k h groups hg; cases hg
  | cons e rest ih =>
      intro rx url i k h groups hg hm hmin
      obtain ⟨k0, h0⟩ := e
      cases i with
      | zero =>
          rw [List.get?_cons_zero, Option.some_inj] at hg
          cases hg
          have hsw : hashBangSlash k = true := by
            by_cases hsw : hashBangSlash k = true
            · exact hsw
            · simp [patternHit, hsw] at hm
          have hrx : rx k url = some groups := by
            simpa [patternHit, hsw] using hm
          simp [findRegExp, hsw, hrx]
      | succ i =>
          have h0m : patternHit rx url k0 = none :=
            hmin 0 (Nat.succ_pos i) k0 h0 rfl
          rw [List.get?_cons_succ] at hg
          have htail : findRegExp rest rx url = some (h, groups) := by
            refine ih rx url i k h groups hg hm ?_
            intro j hj k' h' hg'
            exact hmin (j + 1) (Nat.succ_lt_succ hj) k' h' (by simpa using hg')
          by_cases hsw : hashBangSlash k0 = true
          · have hrx : rx k0 url = none := by
              simpa [patternHit, hsw] using h0m
            simp [findRegExp, hsw, hrx, htail]
          · simp only [Bool.not_eq_true] at hsw
            simp [findRegExp, hsw, htail]

/-- Claim C1: route resolution order and determinism.  (1) If position `i` of
the table holds the first exact key matching the current hash, resolution
returns that key's handler with no captured groups — regardless of any
pattern route, earlier or later.  (2) If no key matches exactly and position
`i` holds the first pattern key whose regular expression matches the document
URL, resolution returns that handler together with the captured groups.
(3) `Router.update` consults the handler table only at the matched handler,
applied to `(oldURL, newURL, groups)` from the resolution — so the captured
groups are passed positionally after `(oldURL, newURL)`.  (4) Resolution over
a fixed table, hash and URL is deterministic. -/
theorem router_match_resolution :
    (∀ (routes : RouteTable) (rx : RegexEngine) (hash url : String)
       (i : Nat) (k : String) (h : Nat),
        routes.get? i = some (k, h) →
        exactMatches k hash = true →
        (∀ j, j < i → ∀ k' h', routes.get? j = some (k', h') →
          exactMatches k' hash = false) →
        matchRoute routes rx hash url = some (h, []))
    ∧ (∀ (routes : RouteTable) (rx : RegexEngine) (hash url : String)
         (i : Nat) (k : String) (h : Nat) (groups : List String),
        (∀ e ∈ routes, exactMatches e.1 hash = false) →
        routes.get? i = some (k, h) →
        patternHit rx url k = some groups →
        (∀ j, j < i → ∀ k' h', routes.get? j = some (k', h') →
          patternHit rx url k' = none) →
        matchRoute routes rx hash url = some (h, groups))
    ∧ (∀ (env : REnv) (nu ou : String) (s : RSt) (hid : Nat)
         (groups : List String)
         (f g : Nat → String → String → List String → HandlerRun),
        matchRoute env.routes env.rx s.hash env.docURL = some (hid, groups) →
        f hid ou nu groups = g hid ou nu groups →
        updateModel { env with handlers := f } nu ou s
          = updateModel { env with handlers := g } nu ou s)
    ∧ (∀ (routes : RouteTable) (rx : RegexEngine) (hash url : String)
         (r1 r2 : Option (Nat × List String)),
        matchRoute routes rx hash url = r1 →
        matchRoute routes rx hash url = r2 → r1 = r2) := by
  refine ⟨?_, ?_, ?_, ?_⟩
  · intro routes rx hash url i k h hg hm hmin
    have := findExact_first routes hash i k h hg hm hmin
    simp [matchRoute, this]
  · intro routes rx hash url i k h groups hno hg hm hmin
    have hex : findExact routes hash = none := findExact_of_no_match routes hash hno
    have hre : findRegExp routes rx url = some (h, groups) :=
      findRegExp_first routes rx url i k h groups hg hm hmin
    simp [matchRoute, hex, hre]
  · intro env nu ou s hid groups f g hm hfg
    simp only [updateModel, hm, hfg]
  · intro routes rx hash url r1 r2 h1 h2
    rw [← h1, ← h2]

/-- Scenario A table `{"/": 1, "/x": 2}`. -/
def routesA : RouteTable := [("/", 1), ("/x", 2)]

/-- Scenario B table `{"#!/user/(\d+)": 7}`. -/
def routesB : RouteTable := [("#!/user/(\\d+)", 7)]

/-- Regex-engine oracle used in witnesses: `new RegExp("#!/user/(\d+)")`
matched against `"http://localhost/#!/user/42"` succeeds with the single
captured group `"42"`; everything else fails. -/
def rxB : RegexEngine := fun k url =>
  if k == "#!/user/(\\d+)" && url == "http://localhost/#!/user/42" then
    some ["42"]
  else none

/-- Regex-engine oracle that never matches. -/
def rxNone : RegexEngine := fun _ _ => none

theorem router_match_resolution_witness :
    matchRoute routesA rxNone "#!/x" "http://localhost/#!/x" = some (2, [])
    ∧ matchRoute routesB rxB "#!/user/42" "http://localhost/#!/user/42"
        = some (7, ["42"]) := by
  constructor
  · refine router_match_resolution.1 routesA rxNone "#!/x" "http://localhost/#!/x"
      1 "/x" 2 rfl (by decide) ?_
    intro j hj k' h' hg'
    cases j with
    | zero =>
        simp only [routesA, List.get?_cons_zero, Option.some.injEq,
          Prod.mk.injEq] at hg'
        obtain ⟨hk, -⟩ := hg'
        subst hk
        decide
    | succ n => omega
  · refine router_match_resolution.2.1 routesB rxB "#!/user/42"
      "http://localhost/#!/user/42" 0 "#!/user/(\\d+)" 7 ["42"]
      (by decide) rfl rfl ?_
    intro j hj
    exact absurd hj (Nat.not_lt_zero j)

/-- Claim C3: an exception thrown by the matched route handler is caught
inside `Router.update`: the only effect is that `window.location.hash` is set
to `"#!/error/"` followed by the URL-encoded error message — the active
component, the root content, the lifecycle event log and the router state are
all untouched (no component is mounted from the failed attempt), and `update`
returns normally. -/
theorem router_error_redirect
    (env : REnv) (nu ou : String) (s : RSt) (hid : Nat)
    (groups : List String) (msg : String)
    (hm : matchRoute env.routes env.rx s.hash env.docURL = some (hid, groups))
    (hh : env.handlers hid ou nu groups = HandlerRun.throws msg) :
    updateModel env nu ou s
      = { s with hash := "#!/error/" ++ encodeURIComponent msg }
    ∧ (updateModel env nu ou s).active = s.active
    ∧ (updateModel env nu ou s).content = s.content
    ∧ (updateModel env nu ou s).events = s.events
    ∧ (updateModel env nu ou s).stVal = s.stVal := by
  have h1 : updateModel env nu ou s
      = { s with hash := "#!/error/" ++ encodeURIComponent msg } := by
    simp only [updateModel, hm, hh]
  exact ⟨h1, by rw [h1], by rw [h1], by rw [h1], by rw [h1]⟩

/-- Environment of the Scenario E witness: one exact route `"/x"` whose
handler throws `Error("boom")`. -/
def envE : REnv :=
  ⟨[("/x", 0)], rxNone, fun _ _ _ _ => HandlerRun.throws "boom",
   "http://localhost/#!/x", "/"⟩

/-- Router state of the Scenario E witness: hash `"#!/x"`, component 4
active and rendered. -/
def sE : RSt := ⟨"#!/x", some 4, some 4, ⟨"", "", JSData.null⟩, []⟩

theorem router_error_redirect_witness :
    (updateModel envE "n" "o" sE).hash = "#!/error/boom"
    ∧ (updateModel envE "n" "o" sE).events = []
    ∧ (updateModel envE "n" "o" sE).active = some 4 := by
  have h := router_error_redirect envE "n" "o" sE 0 [] "boom" rfl rfl
  exact ⟨by rw [h.1]; rfl, h.2.2.2.1, h.2.1⟩

/-- A browser `location.hash` is either empty or begins with `"#"`; this is
the test for the second shape. -/
def beginsWithHash (s : String) : Bool :=
  match s.data with
  | '#' :: _ => true
  | _ => false

/-- Claim C6: when no route matches, `Router.update` reassigns the hash to
the default route — prefixed with `"#!"` when the default route does not
begin with `"#!/"` — unless the current hash already equals the default route
(then nothing at all happens); and with `defaultRoute = "/"` and a current
hash that is empty or begins with `"#"` (as a browser location hash always
does), the hash is reassigned to `"#!/"`. -/
theorem router_default_redirect :
    (∀ (env : REnv) (nu ou : String) (s : RSt),
        matchRoute env.routes env.rx s.hash env.docURL = none →
        s.hash ≠ env.defaultRoute →
        updateModel env nu ou s
          = { s with hash :=
                if hashBangSlash env.defaultRoute then env.defaultRoute
                else "#!" ++ env.defaultRoute })
    ∧ (∀ (env : REnv) (nu ou : String) (s : RSt),
        matchRoute env.routes env.rx s.hash env.docURL = none →
        s.hash = env.defaultRoute →
        updateModel env nu ou s = s)
    ∧ (∀ (env : REnv) (nu ou : String) (s : RSt),
        matchRoute env.routes env.rx s.hash env.docURL = none →
        env.defaultRoute = "/" →
        (s.hash = "" ∨ beginsWithHash s.hash = true) →
        (updateModel env nu ou s).hash = "#!/") := by
  refine ⟨?_, ?_, ?_⟩
  · intro env nu ou s hm hne
    simp only [updateModel, hm]
    rw [if_neg hne]
  · intro env nu ou s hm hd
    simp only [updateModel, hm]
    rw [if_pos hd]
  · intro env nu ou s hm hd hb
    have hne : s.hash ≠ env.defaultRoute := by
      rw [hd]
      rcases hb with hb | hb
      · rw [hb]; decide
      · intro he
        rw [he] at hb
        exact absurd hb (by decide)
    simp only [updateModel, hm]
    rw [if_neg hne, hd]
    rfl

/-- Environment of the Scenario C witness: empty route table, default route
`"/"`. -/
def envC : REnv :=
  ⟨[], rxNone, fun _ _ _ _ => HandlerRun.nonNode, "http://localhost/#!/nope", "/"⟩

/-- Router state of the Scenario C witness: unmatched current hash. -/
def sC : RSt := ⟨"#!/nope", none, none, ⟨"", "", JSData.null⟩, []⟩

theorem router_default_redirect_witness :
    (updateModel envC "n" "o" sC).hash = "#!/" :=
  router_default_redirect.2.2 envC "n" "o" sC rfl rfl (Or.inr rfl)

/-- Claim C9, counterexample: `go("#!/x", 0)` provides a data argument, yet
the `if (!data) return` guard treats the falsy value `0` as absent — the hash
is set but the state keeps `data = null` instead of the provided `0`. -/
theorem router_go_falsy_data_cex :
    (routerGo "#!/x" (some (JSData.num 0)) ⟨"", "", JSData.null⟩).1 = "#!/x"
    ∧ (routerGo "#!/x" (some (JSData.num 0)) ⟨"", "", JSData.null⟩).2
        = ⟨"", "", JSData.null⟩
    ∧ (routerGo "#!/x" (some (JSData.num 0)) ⟨"", "", JSData.null⟩).2.data
        ≠ JSData.num 0 :=
  ⟨rfl, rfl, by decide⟩

/-- Claim C9, amended: `go(hash, data)` always sets the location hash and,
synchronously, merges `data` into the router state — provided `data` is given
and truthy (an absent or falsy `data` leaves the state untouched); the merge
keeps `newURL` and `oldURL` unchanged.  Conversely, the state update of a
successful navigation sets `{newURL, oldURL}` and preserves any previously
set `data`. -/
theorem router_go_merges_truthy_data :
    (∀ (hash : String) (d : JSData) (st : RouterState),
        d.truthy = true →
        routerGo hash (some d) st = (hash, { st with data := d }))
    ∧ (∀ (hash : String) (st : RouterState),
        routerGo hash none st = (hash, st))
    ∧ (∀ (hash : String) (d : JSData) (st : RouterState),
        d.truthy = false →
        routerGo hash (some d) st = (hash, st))
    ∧ (∀ (nu ou : String) (st : RouterState),
        routerNavState nu ou st = ⟨nu, ou, st.data⟩)
    ∧ (∀ (env : REnv) (nu ou : String) (s : RSt) (hid : Nat)
         (groups : List String) (n : Nat),
        matchRoute env.routes env.rx s.hash env.docURL = some (hid, groups) →
        env.handlers hid ou nu groups = HandlerRun.node n →
        (updateModel env nu ou s).stVal = ⟨nu, ou, s.stVal.data⟩) := by
  refine ⟨?_, ?_, ?_, ?_, ?_⟩
  · intro hash d st h
    simp [routerGo, h]
  · intro hash st
    rfl
  · intro hash d st h
    simp [routerGo, h]
  · intro nu ou st
    rfl
  · intro env nu ou s hid groups n hm hh
    simp only [updateModel, hm, hh]
    rfl

/-- Environment of the C9 witness: one exact route whose handler renders
node 8. -/
def envN : REnv :=
  ⟨[("/x", 0)], rxNone, fun _ _ _ _ => HandlerRun.node 8,
   "http://localhost/#!/x", "/"⟩

/-- Router state of the C9 witness, with previously set data `obj 1`. -/
def sN : RSt := ⟨"#!/x", none, none, ⟨"a", "b", JSData.obj 1⟩, []⟩

theorem router_go_merges_truthy_data_witness :
    routerGo "#!/p" (some (JSData.str "v")) ⟨"a", "b", JSData.null⟩
      = ("#!/p", ⟨"a", "b", JSData.str "v"⟩)
    ∧ (updateModel envN "n" "o" sN).stVal = ⟨"n", "o", JSData.obj 1⟩ :=
  ⟨router_go_merges_truthy_data.1 "#!/p" (JSData.str "v") ⟨"a", "b", JSData.null⟩ rfl,
   router_go_merges_truthy_data.2.2.2.2 envN "n" "o" sN 0 [] 8 rfl rfl⟩

/-! ### Router.init (listener registration) -/

/-- State touched by `Router.init`: whether `this._onHashChange` currently
holds a function, the number of `window.addEventListener('hashchange', ...)`
calls the router has made, the log of `update(newURL, oldURL)` calls, and the
state observable's value. -/
structure InitSt where
  hasHandler : Bool
  attachCount : Nat
  updateCalls : List (String × String)
  stVal : RouterState
deriving Repr, DecidableEq

/-- Model of one `Router.init(root, defaultRoute, routes)` call: resets the
state value's `{oldURL, newURL, data}` fields, attaches the hash-change
listener only when `typeof this._onHashChange !== "function"`, then performs
the initial resolution pass `update(document.URL, "")` (the `oldURL` it
passes was just reset to `""`). -/
def routerInitStep (docURL : String) (r : InitSt) : InitSt :=
  let r1 := { r with stVal := { newURL := "", oldURL := "", data := JSData.null } }
  let r2 :=
    if r1.hasHandler then r1
    else { r1 with hasHandler := true, attachCount := r1.attachCount + 1 }
  { r2 with updateCalls := r2.updateCalls ++ [(docURL, "")] }

/-- A sequence of `init` calls, left to right. -/
def routerInitSeq (urls : List String) (r : InitSt) : InitSt :=
  urls.foldl (fun acc u => routerInitStep u acc) r

/-- A freshly constructed `Router`: `_onHashChange` undefined, no listener
attached, no resolution pass performed. -/
def freshRouter : InitSt := ⟨false, 0, [], ⟨"", "", JSData.null⟩⟩

lemma routerInitStep_hasHandler (docURL : String) (r : InitSt) :
    (routerInitStep docURL r).hasHandler = true := by
  by_cases h : r.hasHandler = true <;> simp [routerInitStep, h]

lemma routerInitStep_attach (docURL : String) (r : InitSt) :
    (routerInitStep docURL r).attachCount
      = if r.hasHandler = true then r.attachCount else r.attachCount + 1 := by
  by_cases h : r.hasHandler = true <;> simp [routerInitStep, h]

lemma routerInitStep_calls (docURL : String) (r : InitSt) :
    (routerInitStep docURL r).updateCalls = r.updateCalls ++ [(docURL, "")] := by
  by_cases h : r.hasHandler = true <;> simp [routerInitStep, h]

lemma routerInitSeq_attach :
    ∀ (urls : List String) (r : InitSt),
      (routerInitSeq urls r).attachCount
        = r.attachCount + (if r.hasHandler = true ∨ urls = [] then 0 else 1) := by
  intro urls
  induction urls with
  | nil => intro r; simp [routerInitSeq]
  | cons u us ih =>
      intro r
      have hstep : routerInitSeq (u :: us) r
          = routerInitSeq us (routerInitStep u r) := rfl
      rw [hstep, ih]
      rw [routerInitStep_attach, routerInitStep_hasHandler]
      by_cases h : r.hasHandler = true <;> simp [h]

lemma routerInitSeq_calls :
    ∀ (urls : List String) (r : InitSt),
      (routerInitSeq urls r).updateCalls
        = r.updateCalls ++ urls.map (fun u => (u, "")) := by
  intro urls
  induction urls with
  | nil => intro r; simp [routerInitSeq]
  | cons u us ih =>
      intro r
      have hstep : routerInitSeq (u :: us) r
          = routerInitSeq us (routerInitStep u r) := rfl
      rw [hstep, ih, routerInitStep_calls]
      simp

/-- Claim C8: `Router.init` attaches the hash-change listener only when none
is present (the `typeof this._onHashChange !== "function"` guard), and every
`init` call performs one initial resolution pass `update(document.URL, "")`;
consequently over any sequence of `init` calls on a fresh router, at most one
listener is ever attached, while the resolution passes accumulate one per
call. -/
theorem router_init_single_listener :
    (∀ (docURL : String) (r : InitSt),
        (routerInitStep docURL r).hasHandler = true
        ∧ (routerInitStep docURL r).attachCount
            = (if r.hasHandler = true then r.attachCount else r.attachCount + 1)
        ∧ (routerInitStep docURL r).updateCalls = r.updateCalls ++ [(docURL, "")])
    ∧ (∀ urls : List String,
        (routerInitSeq urls freshRouter).attachCount ≤ 1
        ∧ (routerInitSeq urls freshRouter).updateCalls
            = urls.map (fun u => (u, ""))) := by
  constructor
  · intro docURL r
    exact ⟨routerInitStep_hasHandler docURL r, routerInitStep_attach docURL r,
      routerInitStep_calls docURL r⟩
  · intro urls
    constructor
    · rw [routerInitSeq_attach urls freshRouter]
      by_cases h : urls = [] <;> simp [freshRouter, h]
    · rw [routerInitSeq_calls urls freshRouter]
      rfl

end Seui
